import Mathlib

/-!
Verification of the Gemini code-agent backend (services.py, services_paid.py,
apicodebackend/services.py, pricing.py).

The Python sources are shallowly embedded as pure Lean functions:

* a streamed response is a `List Chunk`; the out-of-band file fetch performed
  by `_serialize_part` for `file_data` parts is modelled by a `FetchOutcome`
  carried on the part (the outcome the external world would produce for it);
* Python dicts built by `_serialize_part` become the `PartDict` structure whose
  `Option` fields model key presence; `json.dumps` emits keys in insertion
  order, which is the fixed field order of `PartDict`, so two equal `PartDict`
  values serialize to byte-identical JSON;
* each NDJSON line yielded by `_stream_response` is the serialization of the
  accumulated list at that moment; we model the emitted lines as the list of
  those `List PartDict` snapshots;
* Python float arithmetic in the pricing code is modelled over `ℚ`
  (`round(x, 6)` becomes `round6`; tie-breaking differs from Python's
  round-half-even but no property below depends on a tie);
* exceptions become `Except` values: external calls that can fail are passed
  in as `Except`-valued environments, and a `try/except` in the source appears
  as a `match` on the environment's result with both branches continuing.
-/

/-- Token counters of `usage_metadata`; `none` models an absent/None counter
(the sources read every counter with `getattr(..., 0) or 0`). -/
structure UsageMetadata where
  prompt_token_count : Option Nat
  cached_content_token_count : Option Nat
  candidates_token_count : Option Nat
  tool_use_prompt_token_count : Option Nat
  thoughts_token_count : Option Nat
  total_token_count : Option Nat
deriving DecidableEq, Repr

/-- `part.executable_code` payload. -/
structure ExecutableCode where
  language : String
  code : String
deriving DecidableEq, Repr

/-- `part.code_execution_result` payload. -/
structure CodeExecutionResult where
  outcome : String
  output : String
deriving DecidableEq, Repr

/-- `part.inline_data` payload; `data` is the raw byte string. -/
structure InlineData where
  mime_type : String
  data : List Nat
deriving DecidableEq, Repr

/-- `part.file_data` payload (a remote-file reference). -/
structure FileDataRef where
  mime_type : String
  file_uri : String
deriving DecidableEq, Repr

/-- Outcome of the out-of-band fetch done for a `file_data` part
(`files.get` + download inside the `try` block of `_serialize_part`):
success with the remote object's `display_name` and bytes, a
`requests.exceptions.RequestException` (network), or any other exception. -/
inductive FetchOutcome where
  | success (display_name : Option String) (content : List Nat)
  | networkError (msg : String)
  | otherError (msg : String)
deriving DecidableEq, Repr

/-- One `part` of a response candidate.  `fetchResult` is the environment's
answer to the file fetch attempted when `file_data` is present (unused
otherwise). -/
structure GenPart where
  text : Option String
  executable_code : Option ExecutableCode
  code_execution_result : Option CodeExecutionResult
  inline_data : Option InlineData
  file_data : Option FileDataRef
  fetchResult : FetchOutcome
deriving DecidableEq, Repr

/-- `chunk.candidates[i].content`. -/
structure Content where
  parts : List GenPart
deriving DecidableEq, Repr

/-- `chunk.candidates[i]`. -/
structure Candidate where
  content : Content
deriving DecidableEq, Repr

/-- One streamed response chunk. -/
structure Chunk where
  usage_metadata : Option UsageMetadata
  candidates : List Candidate
deriving DecidableEq, Repr

/-! ## Base64 (`base64.b64encode(...).decode('utf-8')`) -/

/-- The base64 alphabet. -/
def b64Table : List Char :=
  "ABCDEFGHIJKLMNOPQRSTUVWXYZabcdefghijklmnopqrstuvwxyz0123456789+/".toList

/-- Character for one 6-bit group. -/
def b64c (n : Nat) : Char := b64Table.getD n 'A'

/-- RFC 4648 base64 of a byte list, as characters. -/
def b64encodeList : List Nat → List Char
  | [] => []
  | [a] => [b64c (a / 4), b64c (a % 4 * 16), '=', '=']
  | [a, b] => [b64c (a / 4), b64c (a % 4 * 16 + b / 16), b64c (b % 16 * 4), '=']
  | a :: b :: c :: rest =>
      b64c (a / 4) :: b64c (a % 4 * 16 + b / 16) :: b64c (b % 16 * 4 + c / 64)
        :: b64c (c % 64) :: b64encodeList rest

/-- `base64.b64encode(bytes).decode('utf-8')`. -/
def b64encode (bytes : List Nat) : String := String.mk (b64encodeList bytes)

/-! ## Pricing (`pricing.py`) and the legacy `_calculate_cost`
(`backend/services.py`) -/

/-- One rate set of `PRICING_TIERS` (USD per 1M tokens). -/
structure Rates where
  input : ℚ
  output : ℚ
  cache_read : ℚ
  storage : ℚ
deriving DecidableEq, Repr

/-- One model family's entry of `PRICING_TIERS`; `tier_limit` is `none` for
the flash entry, which has no `"tier_limit"` key. -/
structure PricingConfig where
  tier_limit : Option Nat
  tier_1 : Rates
  tier_2 : Option Rates
deriving DecidableEq, Repr

/-- The `"gemini-2.5-flash"` entry of `PricingService.PRICING_TIERS`. -/
def flashConfig : PricingConfig :=
  { tier_limit := none
    tier_1 := { input := 3/10, output := 5/2, cache_read := 3/100, storage := 1 }
    tier_2 := some { input := 3/10, output := 5/2, cache_read := 3/100, storage := 1 } }

/-- The `"gemini-2.5-pro"` entry of `PricingService.PRICING_TIERS`. -/
def proConfig : PricingConfig :=
  { tier_limit := some 200000
    tier_1 := { input := 5/4, output := 10, cache_read := 1/8, storage := 9/2 }
    tier_2 := some { input := 5/2, output := 15, cache_read := 1/4, storage := 9/2 } }

/-- `PRICING_TIERS` as a lookup by key. -/
def PRICING_TIERS (key : String) : Option PricingConfig :=
  if key = "gemini-2.5-flash" then some flashConfig
  else if key = "gemini-2.5-pro" then some proConfig
  else none

/-- Does the second list occur at the head of the first? -/
def leadsWith : List Char → List Char → Bool
  | _, [] => true
  | [], _ :: _ => false
  | c :: cs, p :: ps => p == c && leadsWith cs ps

/-- Does the second list occur anywhere inside the first? -/
def hasSubList : List Char → List Char → Bool
  | [], pat => pat.isEmpty
  | c :: cs, pat => leadsWith (c :: cs) pat || hasSubList cs pat

/-- Bool test for `pat in s` (Python substring containment). -/
def strContainsSub (s pat : String) : Bool := hasSubList s.toList pat.toList

/-- `model_name.lower()`. -/
def strLower (s : String) : String := String.mk (s.toList.map Char.toLower)

/-- `PricingService.get_pricing_model`: `"pro" in model_name.lower()` picks the
pro table, anything else falls back to flash. -/
def get_pricing_model (model_name : String) : String :=
  if strContainsSub (strLower model_name) "pro" then "gemini-2.5-pro"
  else "gemini-2.5-flash"

/-- Python `round(x, 6)` over `ℚ` (half-to-even ties aside). -/
def round6 (q : ℚ) : ℚ := (round (q * 1000000) : ℤ) / 1000000

/-- `token_breakdown` dict of `calculate_interaction_cost`. -/
structure TokenBreakdown where
  new_input : Int
  cached_input : Int
  output : Int
  total : Int
deriving DecidableEq, Repr

/-- `cost_breakdown` dict of `calculate_interaction_cost`; `storage_cost` is
the key the apicodebackend variant adds afterwards, absent (`none`) as
returned by `pricing.py`. -/
structure CostBreakdown where
  input_cost : ℚ
  output_cost : ℚ
  cache_read_cost : ℚ
  storage_cost : Option ℚ
deriving DecidableEq, Repr

/-- Return dict of `PricingService.calculate_interaction_cost`. -/
structure InteractionCost where
  model_used : String
  currency : String
  token_breakdown : TokenBreakdown
  cost_breakdown : CostBreakdown
  total_cost : ℚ
deriving DecidableEq, Repr

/-- The tier choice of `calculate_interaction_cost` step 4: compare the total
prompt size against `pricing_config.get("tier_limit", 128_000)` and take
`tier_1` or `tier_2` (falling back to `tier_1` if `tier_2` were absent). -/
def tier_rates (cfg : PricingConfig) (total_prompt_tokens : Int) : Rates :=
  if total_prompt_tokens ≤ ((cfg.tier_limit.getD 128000 : Nat) : Int) then cfg.tier_1
  else cfg.tier_2.getD cfg.tier_1

/-- `PricingService.calculate_interaction_cost` (pricing.py). -/
def calculate_interaction_cost (u : UsageMetadata) (model : String) : InteractionCost :=
  let model_key := get_pricing_model model
  let pricing_config := (PRICING_TIERS model_key).getD flashConfig
  let cached_tokens : Int := (u.cached_content_token_count.getD 0 : Nat)
  let total_prompt_tokens : Int := (u.prompt_token_count.getD 0 : Nat)
  let candidates_tokens : Int := (u.candidates_token_count.getD 0 : Nat)
  let tool_tokens : Int := (u.tool_use_prompt_token_count.getD 0 : Nat)
  let thoughts_tokens : Int := (u.thoughts_token_count.getD 0 : Nat)
  let new_input_tokens : Int := max 0 (total_prompt_tokens - cached_tokens + tool_tokens)
  let total_output_tokens : Int := candidates_tokens + thoughts_tokens
  let rates := tier_rates pricing_config total_prompt_tokens
  let input_cost := (new_input_tokens : ℚ) / 1000000 * rates.input
  let output_cost := (total_output_tokens : ℚ) / 1000000 * rates.output
  let cache_read_cost := (cached_tokens : ℚ) / 1000000 * rates.cache_read
  let total_cost := input_cost + output_cost + cache_read_cost
  { model_used := model_key
    currency := "USD"
    token_breakdown :=
      { new_input := new_input_tokens
        cached_input := cached_tokens
        output := total_output_tokens
        total := total_prompt_tokens + total_output_tokens }
    cost_breakdown :=
      { input_cost := round6 input_cost
        output_cost := round6 output_cost
        cache_read_cost := round6 cache_read_cost
        storage_cost := none }
    total_cost := round6 total_cost }

/-- `PricingService.calculate_storage_cost` (pricing.py). -/
def calculate_storage_cost (cached_tokens : Int) (duration_minutes : ℚ) (model : String) : ℚ :=
  let model_key := get_pricing_model model
  let pricing_config := (PRICING_TIERS model_key).getD flashConfig
  let hourly_rate := pricing_config.tier_1.storage
  round6 ((cached_tokens : ℚ) / 1000000 * hourly_rate * (duration_minutes / 60))

/-- Cost dict appended by the apicodebackend `_stream_response`: the
interaction cost with a fixed 10-minute storage component added into
`cost_breakdown["storage_cost"]` and `total_cost`. -/
def apicode_cost (u : UsageMetadata) (model : String) : InteractionCost :=
  let cost_data := calculate_interaction_cost u model
  let storage_cost :=
    calculate_storage_cost cost_data.token_breakdown.cached_input 10 model
  { cost_data with
    cost_breakdown := { cost_data.cost_breakdown with storage_cost := some storage_cost }
    total_cost := cost_data.total_cost + storage_cost }

/-- Return dict of the legacy `AnalysisService._calculate_cost`
(backend/services.py). -/
structure BackendCost where
  input_tokens : Int
  output_tokens : Int
  total_tokens : Int
  input_cost : ℚ
  output_cost : ℚ
  total_cost : ℚ
  currency : String
  model : String
deriving DecidableEq, Repr

/-- `AnalysisService._calculate_cost` (backend/services.py).  Only the second
`pricing` literal in the source is live (the first is immediately
overwritten).  The dict lookup `pricing.get(model)` keyed by the exact model
string, followed by the `model == "gemini-2.5-pro"` branch, is rendered as the
if-chain below; an unknown model leaves both costs at `0.0`.  Note that the
effective input is `(prompt - cached) + tool` with no clamp, and that the pro
tier test uses `real_input_tokens` / `real_output_tokens`. -/
def calculate_cost (u : UsageMetadata) (model : String) : BackendCost :=
  let cached_tokens : Int := (u.cached_content_token_count.getD 0 : Nat)
  let prompt_tokens : Int := (u.prompt_token_count.getD 0 : Nat)
  let tool_use_tokens : Int := (u.tool_use_prompt_token_count.getD 0 : Nat)
  let effective_input_tokens : Int := (prompt_tokens - cached_tokens) + tool_use_tokens
  let real_input_tokens := effective_input_tokens
  let output_tokens : Int := (u.candidates_token_count.getD 0 : Nat)
  let thoughts_tokens : Int := (u.thoughts_token_count.getD 0 : Nat)
  let real_output_tokens := output_tokens + thoughts_tokens
  let total_tokens : Int :=
    if (u.total_token_count.getD 0 : Nat) = 0 then real_input_tokens + real_output_tokens
    else ((u.total_token_count.getD 0 : Nat) : Int)
  let costs : ℚ × ℚ :=
    if model = "gemini-2.5-pro" then
      ((real_input_tokens : ℚ) / 1000000 * (if real_input_tokens ≤ 200000 then 5/4 else 5/2),
       (real_output_tokens : ℚ) / 1000000 * (if real_output_tokens ≤ 200000 then 10 else 15))
    else if model = "gemini-2.5-flash-lite" then
      ((real_input_tokens : ℚ) / 1000000 * (1/10), (real_output_tokens : ℚ) / 1000000 * (4/10))
    else if model = "gemini-2.5-flash" then
      ((real_input_tokens : ℚ) / 1000000 * (3/10), (real_output_tokens : ℚ) / 1000000 * (5/2))
    else (0, 0)
  { input_tokens := real_input_tokens
    output_tokens := real_output_tokens
    total_tokens := total_tokens
    input_cost := costs.1
    output_cost := costs.2
    total_cost := costs.1 + costs.2
    currency := "USD"
    model := model }

/-! ## Fragment normalizer (`_serialize_part`) -/

/-- The `"fileData"` sub-dict produced for a `file_data` part; `Option` fields
model key presence. -/
structure FileDataFrag where
  mimeType : String
  data : Option String
  name : Option String
  fileUri : Option String
  error : Option String
deriving DecidableEq, Repr

/-- The cost payload appended on stream exhaustion — the legacy backend dict
or the pricing-service dict, depending on the variant. -/
inductive CostVal where
  | backend (c : BackendCost)
  | pricing (c : InteractionCost)
deriving DecidableEq, Repr

/-- The dict built by `_serialize_part` (plus the `"costData"` key used by the
cost fragment, never set by `_serialize_part` itself).  `Option` fields model
key presence; the field order is the key insertion order. -/
structure PartDict where
  text : Option String
  executableCode : Option (String × String)
  codeExecutionResult : Option (String × String)
  inlineData : Option (String × String)
  fileData : Option FileDataFrag
  costData : Option CostVal
deriving DecidableEq, Repr

/-- The `"fileData"` entry: on a successful fetch, base64 data plus the
resolved display name (default `'downloaded_file'`); on
`requests.exceptions.RequestException`, the original URI and a
`"Network error: ..."` message; on any other exception, the original URI and a
`"Processing error: ..."` message. -/
def serialize_file_data (fd : FileDataRef) : FetchOutcome → FileDataFrag
  | .success display_name content =>
      { mimeType := fd.mime_type
        data := some (b64encode content)
        name := some (display_name.getD "downloaded_file")
        fileUri := none
        error := none }
  | .networkError msg =>
      { mimeType := fd.mime_type
        data := none
        name := none
        fileUri := some fd.file_uri
        error := some ("Network error: " ++ msg) }
  | .otherError msg =>
      { mimeType := fd.mime_type
        data := none
        name := none
        fileUri := some fd.file_uri
        error := some ("Processing error: " ++ msg) }

/-- `AnalysisService._serialize_part`: each payload kind present on the part
contributes its key; `if part.text:` also skips an empty text. -/
def serialize_part (p : GenPart) : PartDict :=
  { text :=
      match p.text with
      | some t => if t = "" then none else some t
      | none => none
    executableCode := p.executable_code.map fun e => (e.language, e.code)
    codeExecutionResult := p.code_execution_result.map fun r => (r.outcome, r.output)
    inlineData := p.inline_data.map fun d => (d.mime_type, b64encode d.data)
    fileData := p.file_data.map fun fd => serialize_file_data fd p.fetchResult
    costData := none }

/-- Python `if part_dict:` — the dict is non-empty. -/
def PartDict.nonempty (pd : PartDict) : Bool :=
  pd.text.isSome || pd.executableCode.isSome || pd.codeExecutionResult.isSome ||
    pd.inlineData.isSome || pd.fileData.isSome || pd.costData.isSome

/-! ## Stream accumulator (`_stream_response`) -/

/-- `accumulated_parts[-1]["text"] += t` — extend the last dict's text in
place, touching no other key. -/
def textMerge (last : PartDict) (t : String) : PartDict :=
  { last with text := some (last.text.getD "" ++ t) }

/-- The merge-or-append rule of `_stream_response`: if the new dict has a
`"text"` key and the accumulated list is non-empty with a `"text"` key on its
last dict, concatenate the text in place; otherwise append the new dict. -/
def mergeOrAppend (acc : List PartDict) (pd : PartDict) : List PartDict :=
  match acc.getLast? with
  | some last =>
      if pd.text.isSome && last.text.isSome then
        acc.dropLast ++ [textMerge last (pd.text.getD "")]
      else acc ++ [pd]
  | none => acc ++ [pd]

/-- State of the drain loop of `_stream_response`: the accumulated list, the
last usage metadata observed, and the NDJSON snapshots emitted so far. -/
structure StreamState where
  acc : List PartDict
  finalUsage : Option UsageMetadata
  emitted : List (List PartDict)
deriving DecidableEq, Repr

/-- Body of the inner `for part in chunk.candidates[0].content.parts` loop:
serialize the part and, if the dict is non-empty, merge-or-append it and
yield the current accumulated list. -/
def processPart (st : StreamState) (p : GenPart) : StreamState :=
  let pd := serialize_part p
  if pd.nonempty then
    let acc2 := mergeOrAppend st.acc pd
    { st with acc := acc2, emitted := st.emitted ++ [acc2] }
  else st

/-- Body of the `async for chunk in ...` loop: remember the chunk's usage
metadata if present, then process the parts of the first candidate (if any
candidate exists). -/
def processChunk (st : StreamState) (ch : Chunk) : StreamState :=
  let st1 :=
    match ch.usage_metadata with
    | some _ => { st with finalUsage := ch.usage_metadata }
    | none => st
  match ch.candidates with
  | [] => st1
  | cand :: _ => cand.content.parts.foldl processPart st1

/-- The drain loop over the whole chunk stream, from the initial state
(`accumulated_parts = []`, no usage metadata, nothing emitted). -/
def streamCore (chunks : List Chunk) : StreamState :=
  chunks.foldl processChunk { acc := [], finalUsage := none, emitted := [] }

/-- The fragment `{"costData": cost_data}`. -/
def costFragment (c : CostVal) : PartDict :=
  { text := none, executableCode := none, codeExecutionResult := none
    inlineData := none, fileData := none, costData := some c }

/-- Stream exhaustion: if usage metadata was observed, append the cost
fragment and yield one final snapshot (the computed cost dict is always
truthy, so `if cost_data:` always takes the append branch); otherwise only
log. -/
def finalizeStream (costFn : UsageMetadata → String → CostVal) (model : String)
    (st : StreamState) : StreamState :=
  match st.finalUsage with
  | some u =>
      let acc2 := st.acc ++ [costFragment (costFn u model)]
      { st with acc := acc2, emitted := st.emitted ++ [acc2] }
  | none => st

/-- The NDJSON snapshots emitted by `_stream_response` for a drained stream,
parametrized by the variant's end-of-stream cost computation. -/
def streamEmitted (costFn : UsageMetadata → String → CostVal) (chunks : List Chunk)
    (model : String) : List (List PartDict) :=
  (finalizeStream costFn model (streamCore chunks)).emitted

/-- Cost computation of the backend/services.py variant. -/
def backendCostFn (u : UsageMetadata) (model : String) : CostVal :=
  .backend (calculate_cost u model)

/-- Cost computation of the services_paid.py variant. -/
def paidCostFn (u : UsageMetadata) (model : String) : CostVal :=
  .pricing (calculate_interaction_cost u model)

/-- Cost computation of the apicodebackend/services.py variant. -/
def apicodeCostFn (u : UsageMetadata) (model : String) : CostVal :=
  .pricing (apicode_cost u model)

/-- `_stream_response` of backend/services.py. -/
def backend_stream_response (chunks : List Chunk) (model : String) : List (List PartDict) :=
  streamEmitted backendCostFn chunks model

/-- `_stream_response` of services_paid.py. -/
def paid_stream_response (chunks : List Chunk) (model : String) : List (List PartDict) :=
  streamEmitted paidCostFn chunks model

/-- `_stream_response` of apicodebackend/services.py. -/
def apicode_stream_response (chunks : List Chunk) (model : String) : List (List PartDict) :=
  streamEmitted apicodeCostFn chunks model

/-! ## Session and cache lifecycle -/

/-- Errors surfaced by the chat methods: the `ValueError("Chat session ...
not found")` raised on an unknown id, or an upstream exception re-raised from
the send/stream path. -/
inductive ChatError where
  | notFound (chat_id : String)
  | upstream (msg : String)
deriving DecidableEq, Repr

/-- A free-tier session entry of `self._chat_sessions`
(backend/services.py and apicodebackend/services.py): the model plus the
pending uploaded-file handle, cleared on first send. -/
structure FreeSession where
  model : String
  uploaded_file : Option String
deriving DecidableEq, Repr

/-- A paid-tier session entry of `self._chat_sessions` (services_paid.py):
the model, the bound cache name (if a file was cached) and its creation
instant. -/
structure PaidSession where
  model : String
  cache_name : Option String
  cache_created_at : Nat
deriving DecidableEq, Repr

/-- Remove a key from the session registry (Python `del`). -/
def eraseKey {σ : Type} (sessions : List (String × σ)) (chat_id : String) :
    List (String × σ) :=
  sessions.filter fun p => p.1 ≠ chat_id

/-- Replace the entry stored under a key (in-place mutation of the session
dict's value). -/
def updateKey {σ : Type} (sessions : List (String × σ)) (chat_id : String) (v : σ) :
    List (String × σ) :=
  sessions.map fun p => if p.1 = chat_id then (p.1, v) else p

/-- `AnalysisService.delete_chat` (backend/services.py and
apicodebackend/services.py): delete the entry if present, silently do nothing
otherwise. -/
def free_delete_chat (sessions : List (String × FreeSession)) (chat_id : String) :
    List (String × FreeSession) :=
  if (sessions.lookup chat_id).isSome then eraseKey sessions chat_id else sessions

/-- The outgoing payload of a free-tier send: `message` alone, or
`[uploaded_file, message]` when a pending file travels with the first send. -/
inductive MessageContent where
  | textOnly (message : String)
  | fileAndText (uploaded_file : String) (message : String)
deriving DecidableEq, Repr

/-- `AnalysisService.send_message_to_chat` (backend/services.py): raise
`ValueError` for an unknown id; otherwise attach and clear any pending
uploaded file, send (`sendEnv` supplies the upstream response chunks for the
outgoing payload, or the exception the send/stream raised) and drain through
`_stream_response`.  Returns the emitted snapshots and the updated
registry. -/
def free_send_message_to_chat
    (sendEnv : MessageContent → Except String (List Chunk))
    (sessions : List (String × FreeSession)) (chat_id message : String) :
    Except ChatError (List (List PartDict) × List (String × FreeSession)) :=
  match sessions.lookup chat_id with
  | none => .error (.notFound chat_id)
  | some chat_session =>
      let step : MessageContent × List (String × FreeSession) :=
        match chat_session.uploaded_file with
        | some f =>
            (.fileAndText f message,
             updateKey sessions chat_id { chat_session with uploaded_file := none })
        | none => (.textOnly message, sessions)
      match sendEnv step.1 with
      | .error e => .error (.upstream e)
      | .ok chunks => .ok (backend_stream_response chunks chat_session.model, step.2)

/-- `AnalysisService._update_cache_heartbeat` (services_paid.py): ask the
cache service (`hbEnv`) to reset the TTL; any exception is logged and
swallowed (`except: ... pass`), never re-raised. -/
def update_cache_heartbeat (hbEnv : String → Except String Unit)
    (cache_name : String) : Except String Unit :=
  match hbEnv cache_name with
  | .ok _ => .ok ()
  | .error _ => .ok ()

/-- `AnalysisService.send_message_to_chat` (services_paid.py): raise
`ValueError` for an unknown id; heartbeat the bound cache first (awaited, so
an escaping exception would propagate — but `update_cache_heartbeat` swallows
its own failures); then send and drain through `_stream_response`. -/
def paid_send_message_to_chat
    (hbEnv : String → Except String Unit)
    (sendEnv : Except String (List Chunk))
    (sessions : List (String × PaidSession)) (chat_id _message : String) :
    Except ChatError (List (List PartDict)) :=
  match sessions.lookup chat_id with
  | none => .error (.notFound chat_id)
  | some session_data =>
      let hb : Except String Unit :=
        match session_data.cache_name with
        | some cache_name => update_cache_heartbeat hbEnv cache_name
        | none => .ok ()
      match hb with
      | .error e => .error (.upstream e)
      | .ok _ =>
          match sendEnv with
          | .error e => .error (.upstream e)
          | .ok chunks => .ok (paid_stream_response chunks session_data.model)

/-- `AnalysisService.delete_chat` (services_paid.py): if the session exists
and has a bound cache, try a best-effort remote cache deletion (`delEnv`),
logging either way; always end by deleting the registry entry.  Unknown ids
are a no-op.  The `Except` result shows no failure of the cache deletion
escapes. -/
def paid_delete_chat (delEnv : String → Except String Unit)
    (sessions : List (String × PaidSession)) (chat_id : String) :
    Except String (List (String × PaidSession)) :=
  match sessions.lookup chat_id with
  | none => .ok sessions
  | some session =>
      match session.cache_name with
      | some cache_name =>
          match delEnv cache_name with
          | .ok _ => .ok (eraseKey sessions chat_id)
          | .error _ => .ok (eraseKey sessions chat_id)
      | none => .ok (eraseKey sessions chat_id)

/-! ## Properties of the embedded operations -/

/-- Successful remote-file resolution: `error` absent, `data` and `name`
present. -/
def FileDataFrag.isSuccess (f : FileDataFrag) : Prop :=
  f.error = none ∧ f.data.isSome = true ∧ f.name.isSome = true

/-- Network-failure outcome: an `error` message starting with the network
marker, with neither `data` nor `name`. -/
def FileDataFrag.isNetworkFailure (f : FileDataFrag) : Prop :=
  (∃ m, f.error = some ("Network error: " ++ m)) ∧ f.data = none ∧ f.name = none

/-- Processing-failure outcome: an `error` message carrying the
processing marker, with neither `data` nor `name`. -/
def FileDataFrag.isProcessingFailure (f : FileDataFrag) : Prop :=
  (∃ m, f.error = some ("Processing error: " ++ m)) ∧ f.data = none ∧ f.name = none

/-- The change between two consecutive emitted snapshots: either one new
fragment was appended at the end, or the last fragment (which had a `"text"`
key) had text concatenated onto it in place. -/
def EmitStep (a b : List PartDict) : Prop :=
  (∃ pd, b = a ++ [pd]) ∨
    (∃ front last t, a = front ++ [last] ∧ last.text.isSome = true ∧
      b = front ++ [textMerge last t])

/-- The monotonicity relation claimed for consecutive emitted lines: the
sequence length never decreases, every fragment strictly below the earlier
line's last index is unchanged (hence serializes byte-identically), and the
step is an append at the end or an in-place text extension of the last
fragment. -/
def MonotoneStep (a b : List PartDict) : Prop :=
  a.length ≤ b.length ∧ b.take (a.length - 1) = a.take (a.length - 1) ∧ EmitStep a b

/-- Drain-loop invariant: consecutive emitted snapshots are related by
`MonotoneStep`, and the most recently emitted snapshot is the current
accumulated list. -/
def StreamInv (st : StreamState) : Prop :=
  List.Chain' MonotoneStep st.emitted ∧ ∀ x, st.emitted.getLast? = some x → x = st.acc

/-- No fragment produced by the drain loop itself carries a `"costData"`
key. -/
def CostFreeState (st : StreamState) : Prop :=
  (∀ line ∈ st.emitted, ∀ f ∈ line, f.costData = none) ∧ ∀ f ∈ st.acc, f.costData = none

/-! ## Supporting lemmas -/

theorem string_data_append (s t : String) : (s ++ t).data = s.data ++ t.data := by
  cases s
  cases t
  rfl

theorem network_marker_ne_processing_marker (a b : String) :
    ("Network error: " ++ a) ≠ ("Processing error: " ++ b) := by
  intro h
  have h2 := congrArg String.data h
  rw [string_data_append, string_data_append] at h2
  have e1 : ("Network error: " : String).data = 'N' :: ("etwork error: " : String).data := rfl
  have e2 : ("Processing error: " : String).data = 'P' :: ("rocessing error: " : String).data := rfl
  rw [e1, e2] at h2
  simp only [List.cons_append] at h2
  injection h2 with hh _
  exact absurd hh (by decide)

theorem getLast?_decomp {α : Type} : ∀ (l : List α) (a : α),
    l.getLast? = some a → ∃ f, l = f ++ [a] := by
  intro l
  induction l with
  | nil => intro a h; simp at h
  | cons x t ih =>
    intro a h
    cases t with
    | nil =>
      simp [List.getLast?] at h
      exact ⟨[], by simp [h]⟩
    | cons y s =>
      rw [List.getLast?_cons_cons] at h
      obtain ⟨f, hf⟩ := ih a h
      exact ⟨x :: f, by simp [hf]⟩

theorem foldl_preserve {α σ : Type} (P : σ → Prop) (f : σ → α → σ)
    (hstep : ∀ s a, P s → P (f s a)) :
    ∀ (l : List α) (s : σ), P s → P (l.foldl f s) := by
  intro l
  induction l with
  | nil => intro s hs; exact hs
  | cons a t ih => intro s hs; exact ih _ (hstep _ _ hs)

theorem monotoneStep_append (a : List PartDict) (pd : PartDict) : MonotoneStep a (a ++ [pd]) := by
  refine ⟨by simp, ?_, Or.inl ⟨pd, rfl⟩⟩
  rw [List.take_append_eq_append_take]
  simp [show a.length - 1 - a.length = 0 from by omega]

theorem monotoneStep_merge (front : List PartDict) (last : PartDict) (t : String)
    (h : last.text.isSome = true) :
    MonotoneStep (front ++ [last]) (front ++ [textMerge last t]) := by
  refine ⟨by simp, ?_, Or.inr ⟨front, last, t, rfl, h, rfl⟩⟩
  have hl : (front ++ [last]).length - 1 = front.length := by simp
  rw [hl, List.take_append_eq_append_take, List.take_append_eq_append_take]
  simp

theorem monotoneStep_mergeOrAppend (acc : List PartDict) (pd : PartDict) :
    MonotoneStep acc (mergeOrAppend acc pd) := by
  rcases hl : acc.getLast? with _ | last
  · simp only [mergeOrAppend, hl]
    exact monotoneStep_append acc pd
  · by_cases hc : (pd.text.isSome && last.text.isSome) = true
    · simp only [mergeOrAppend, hl, if_pos hc]
      obtain ⟨front, hfront⟩ := getLast?_decomp acc last hl
      have hlast : last.text.isSome = true := ((Bool.and_eq_true _ _).mp hc).2
      have hdrop : acc.dropLast = front := by rw [hfront]; simp
      rw [hdrop, hfront]
      exact monotoneStep_merge front last _ hlast
    · simp only [mergeOrAppend, hl, if_neg hc]
      exact monotoneStep_append acc pd

theorem streamInv_processPart : ∀ (st : StreamState) (p : GenPart),
    StreamInv st → StreamInv (processPart st p) := by
  intro st p h
  simp only [processPart]
  split
  · constructor
    · rw [List.chain'_append]
      refine ⟨h.1, List.chain'_singleton _, ?_⟩
      intro x hx y hy
      simp at hy
      subst hy
      have hx' : x = st.acc := h.2 x hx
      subst hx'
      exact monotoneStep_mergeOrAppend st.acc _
    · intro x hx
      rw [List.getLast?_concat] at hx
      exact (Option.some.injEq _ _ ▸ hx).symm
  · exact h

theorem streamInv_processChunk : ∀ (st : StreamState) (ch : Chunk),
    StreamInv st → StreamInv (processChunk st ch) := by
  intro st ch h
  simp only [processChunk]
  have h1 : StreamInv
      (match ch.usage_metadata with
       | some _ => { st with finalUsage := ch.usage_metadata }
       | none => st) := by
    cases ch.usage_metadata <;> exact h
  cases ch.candidates with
  | nil => exact h1
  | cons cand rest => exact foldl_preserve StreamInv processPart streamInv_processPart _ _ h1

theorem streamInv_streamCore (chunks : List Chunk) : StreamInv (streamCore chunks) := by
  unfold streamCore
  refine foldl_preserve StreamInv processChunk streamInv_processChunk chunks _ ⟨List.chain'_nil, ?_⟩
  intro x hx
  simp at hx

theorem streamInv_finalizeStream (costFn : UsageMetadata → String → CostVal) (model : String)
    (st : StreamState) (h : StreamInv st) : StreamInv (finalizeStream costFn model st) := by
  simp only [finalizeStream]
  cases hu : st.finalUsage with
  | none => exact h
  | some u =>
    constructor
    · rw [List.chain'_append]
      refine ⟨h.1, List.chain'_singleton _, ?_⟩
      intro x hx y hy
      simp at hy
      subst hy
      have hx' : x = st.acc := h.2 x hx
      subst hx'
      exact monotoneStep_append st.acc _
    · intro x hx
      rw [List.getLast?_concat] at hx
      exact (Option.some.injEq _ _ ▸ hx).symm

theorem mem_mergeOrAppend {acc : List PartDict} {pd x : PartDict}
    (hx : x ∈ mergeOrAppend acc pd) :
    x ∈ acc ∨ x = pd ∨ ∃ last t, last ∈ acc ∧ x = textMerge last t := by
  rcases hl : acc.getLast? with _ | last
  · simp only [mergeOrAppend, hl] at hx
    simp at hx
    rcases hx with h | h
    · exact Or.inl h
    · exact Or.inr (Or.inl h)
  · obtain ⟨front, hfront⟩ := getLast?_decomp acc last hl
    have hlastmem : last ∈ acc := by rw [hfront]; simp
    by_cases hc : (pd.text.isSome && last.text.isSome) = true
    · simp only [mergeOrAppend, hl, if_pos hc] at hx
      rw [List.mem_append] at hx
      rcases hx with h | h
      · exact Or.inl ((List.dropLast_sublist acc).subset h)
      · simp at h
        exact Or.inr (Or.inr ⟨last, _, hlastmem, h⟩)
    · simp only [mergeOrAppend, hl, if_neg hc] at hx
      simp at hx
      rcases hx with h | h
      · exact Or.inl h
      · exact Or.inr (Or.inl h)

theorem costFree_processPart : ∀ (st : StreamState) (p : GenPart),
    CostFreeState st → CostFreeState (processPart st p) := by
  intro st p h
  have hmerge : ∀ f ∈ mergeOrAppend st.acc (serialize_part p), f.costData = none := by
    intro f hf
    rcases mem_mergeOrAppend hf with h1 | h1 | ⟨last, t, hlast, rfl⟩
    · exact h.2 f h1
    · subst h1; rfl
    · have := h.2 last hlast
      simpa [textMerge] using this
  simp only [processPart]
  split
  · constructor
    · intro line hline f hf
      rw [List.mem_append] at hline
      rcases hline with h1 | h1
      · exact h.1 line h1 f hf
      · simp at h1
        subst h1
        exact hmerge f hf
    · exact hmerge
  · exact h

theorem costFree_processChunk : ∀ (st : StreamState) (ch : Chunk),
    CostFreeState st → CostFreeState (processChunk st ch) := by
  intro st ch h
  simp only [processChunk]
  have h1 : CostFreeState
      (match ch.usage_metadata with
       | some _ => { st with finalUsage := ch.usage_metadata }
       | none => st) := by
    cases ch.usage_metadata <;> exact h
  cases ch.candidates with
  | nil => exact h1
  | cons cand rest => exact foldl_preserve CostFreeState processPart costFree_processPart _ _ h1

theorem costFree_streamCore (chunks : List Chunk) : CostFreeState (streamCore chunks) := by
  unfold streamCore
  refine foldl_preserve CostFreeState processChunk costFree_processChunk chunks _ ⟨?_, ?_⟩
  · intro line hline
    simp at hline
  · intro f hf
    simp at hf

theorem finalUsage_processPart (st : StreamState) (p : GenPart) :
    (processPart st p).finalUsage = st.finalUsage := by
  simp only [processPart]
  split <;> rfl

theorem finalUsage_foldParts : ∀ (parts : List GenPart) (st : StreamState),
    (parts.foldl processPart st).finalUsage = st.finalUsage := by
  intro parts
  induction parts with
  | nil => intro st; rfl
  | cons p t ih => intro st; rw [List.foldl_cons, ih, finalUsage_processPart]

theorem finalUsage_processChunk (st : StreamState) (ch : Chunk) :
    (processChunk st ch).finalUsage =
      match ch.usage_metadata with
      | some u => some u
      | none => st.finalUsage := by
  simp only [processChunk]
  cases hu : ch.usage_metadata <;> cases ch.candidates <;>
    simp [finalUsage_foldParts, hu]

theorem findSome?_append_eq {α β : Type} (f : α → Option β) : ∀ (l₁ l₂ : List α),
    (l₁ ++ l₂).findSome? f =
      match l₁.findSome? f with
      | some b => some b
      | none => l₂.findSome? f := by
  intro l₁ l₂
  induction l₁ with
  | nil => simp [List.findSome?]
  | cons a t ih =>
    simp only [List.cons_append, List.findSome?]
    cases f a <;> simp [ih]

theorem findSome?_isSome_iff {α β : Type} (f : α → Option β) : ∀ l : List α,
    (l.findSome? f).isSome = true ↔ ∃ a ∈ l, (f a).isSome = true := by
  intro l
  induction l with
  | nil => simp [List.findSome?]
  | cons a t ih =>
    simp only [List.findSome?]
    cases hfa : f a with
    | some b =>
      simp only [Option.isSome_some, true_iff]
      exact ⟨a, by simp, by simp [hfa]⟩
    | none =>
      rw [ih]
      constructor
      · rintro ⟨x, hx, hsome⟩
        exact ⟨x, by simp [hx], hsome⟩
      · rintro ⟨x, hx, hsome⟩
        rcases List.mem_cons.mp hx with rfl | hx'
        · rw [hfa] at hsome; simp at hsome
        · exact ⟨x, hx', hsome⟩

theorem finalUsage_foldChunks : ∀ (chunks : List Chunk) (st : StreamState),
    (chunks.foldl processChunk st).finalUsage =
      match chunks.reverse.findSome? (fun c => c.usage_metadata) with
      | some u => some u
      | none => st.finalUsage := by
  intro chunks
  induction chunks with
  | nil => intro st; simp [List.findSome?]
  | cons c t ih =>
    intro st
    rw [List.foldl_cons, ih, List.reverse_cons, findSome?_append_eq, finalUsage_processChunk]
    cases h1 : t.reverse.findSome? (fun c => c.usage_metadata) <;>
      cases h2 : c.usage_metadata <;>
        simp [List.findSome?, h2]

/-! ## Claims -/

/-- C1: across any two consecutive NDJSON lines emitted by
`_stream_response` (for any chunk stream, model, and variant cost function),
the sequence length never decreases, every fragment at an index strictly
below the earlier line's last index is unchanged — hence serializes
byte-identically — and the step is either an in-place growth of the last
fragment's text or an append of one new fragment at the end
(`MonotoneStep`). -/
theorem c1_stream_monotonic (costFn : UsageMetadata → String → CostVal)
    (chunks : List Chunk) (model : String) :
    List.Chain' MonotoneStep (streamEmitted costFn chunks model) :=
  (streamInv_finalizeStream costFn model _ (streamInv_streamCore chunks)).1

/-- C2: the lines emitted by `_stream_response` are exactly the drain-loop
snapshots (none of whose fragments carries a `"costData"` key) followed, when
and only when some chunk carried usage metadata, by one extra final snapshot
consisting of the accumulated list plus a single cost fragment as its last
element; the usage metadata used is the last one observed in the stream
(`findSome?` over the reversed chunk list). -/
theorem c2_cost_fragment (costFn : UsageMetadata → String → CostVal)
    (chunks : List Chunk) (model : String) :
    streamEmitted costFn chunks model =
      (streamCore chunks).emitted ++
        (match (streamCore chunks).finalUsage with
         | some u => [(streamCore chunks).acc ++ [costFragment (costFn u model)]]
         | none => [])
    ∧ (∀ line ∈ (streamCore chunks).emitted, ∀ f ∈ line, f.costData = none)
    ∧ (∀ f ∈ (streamCore chunks).acc, f.costData = none)
    ∧ (streamCore chunks).finalUsage = chunks.reverse.findSome? (fun c => c.usage_metadata)
    ∧ ((streamCore chunks).finalUsage.isSome = true
        ↔ ∃ c ∈ chunks, c.usage_metadata.isSome = true) := by
  have hcore := costFree_streamCore chunks
  have husage : (streamCore chunks).finalUsage
      = chunks.reverse.findSome? (fun c => c.usage_metadata) := by
    rw [streamCore, finalUsage_foldChunks]
    cases chunks.reverse.findSome? (fun c => c.usage_metadata) <;> rfl
  refine ⟨?_, hcore.1, hcore.2, husage, ?_⟩
  · unfold streamEmitted finalizeStream
    cases h : (streamCore chunks).finalUsage <;> simp [h]
  · rw [husage, findSome?_isSome_iff]
    constructor
    · rintro ⟨c, hc, hu⟩
      exact ⟨c, List.mem_reverse.mp hc, hu⟩
    · rintro ⟨c, hc, hu⟩
      exact ⟨c, List.mem_reverse.mpr hc, hu⟩

/-- C3: two consecutive chunks whose parts normalize to text-only dicts
`"A"` then `"B"` leave exactly one text fragment `"AB"` in the accumulated
sequence (the emitted lines being `[{text "A"}]` then `[{text "AB"}]`); and
in general the accumulator appends a new fragment if and only if it is not
the case that both the just-produced dict and the last accumulated dict
carry a `"text"` key. -/
theorem c3_adjacent_text_merge (costFn : UsageMetadata → String → CostVal) (model : String) :
    streamEmitted costFn
      [⟨none, [⟨⟨[⟨some "A", none, none, none, none, .success none []⟩]⟩⟩]⟩,
       ⟨none, [⟨⟨[⟨some "B", none, none, none, none, .success none []⟩]⟩⟩]⟩] model
      = [[⟨some "A", none, none, none, none, none⟩],
         [⟨some "AB", none, none, none, none, none⟩]]
    ∧ ∀ (acc : List PartDict) (pd : PartDict),
        (mergeOrAppend acc pd = acc ++ [pd]
          ↔ ¬ (pd.text.isSome = true
                ∧ ∃ last, acc.getLast? = some last ∧ last.text.isSome = true)) := by
  constructor
  · rfl
  · intro acc pd
    constructor
    · intro h hcond
      obtain ⟨hpd, last, hl, hlast⟩ := hcond
      obtain ⟨front, hfront⟩ := getLast?_decomp acc last hl
      simp only [mergeOrAppend, hl,
        if_pos (by rw [hpd, hlast]; rfl : (pd.text.isSome && last.text.isSome) = true)] at h
      have hlen := congrArg List.length h
      rw [hfront] at hlen
      simp at hlen
    · intro h
      rcases hl : acc.getLast? with _ | last
      · simp only [mergeOrAppend, hl]
      · have hc : ¬ (pd.text.isSome && last.text.isSome) = true := by
          intro hb
          obtain ⟨h1, h2⟩ := (Bool.and_eq_true _ _).mp hb
          exact h ⟨h1, last, hl, h2⟩
        simp only [mergeOrAppend, hl, if_neg hc]

/-- C4 counterexample: the claim also covers `_calculate_cost` in
backend/services.py, whose effective input is `(prompt - cached) + tool` with
no `max(0, ...)` clamp: at `prompt_token_count = 5`,
`cached_content_token_count = 10` it returns `-5`, a negative value different
from `max(0, 5 - 10 + 0) = 0`. -/
theorem c4_counterexample :
    (calculate_cost ⟨some 5, some 10, none, none, none, none⟩ "gemini-2.5-flash").input_tokens = -5
    ∧ ¬ (0 : Int) ≤ (calculate_cost ⟨some 5, some 10, none, none, none, none⟩
        "gemini-2.5-flash").input_tokens
    ∧ (calculate_cost ⟨some 5, some 10, none, none, none, none⟩
        "gemini-2.5-flash").input_tokens ≠ max 0 ((5 : Int) - 10 + 0) := by
  refine ⟨by decide, by decide, by decide⟩

/-- C4 amended: `calculate_interaction_cost` (pricing.py) derives
`new_input_tokens = max(0, prompt - cached + tool_use)` with missing counters
as zero, and the result is never negative; the legacy `_calculate_cost`
(backend/services.py) instead computes the unclamped `(prompt - cached) +
tool_use` — the two agree exactly when `cached ≤ prompt + tool_use`. -/
theorem c4_amended (u : UsageMetadata) (model : String) :
    (calculate_interaction_cost u model).token_breakdown.new_input =
      max 0 (((u.prompt_token_count.getD 0 : Nat) : Int)
        - ((u.cached_content_token_count.getD 0 : Nat) : Int)
        + ((u.tool_use_prompt_token_count.getD 0 : Nat) : Int))
    ∧ 0 ≤ (calculate_interaction_cost u model).token_breakdown.new_input
    ∧ (calculate_cost u model).input_tokens =
      (((u.prompt_token_count.getD 0 : Nat) : Int)
        - ((u.cached_content_token_count.getD 0 : Nat) : Int))
        + ((u.tool_use_prompt_token_count.getD 0 : Nat) : Int) := by
  have h1 : (calculate_interaction_cost u model).token_breakdown.new_input =
      max 0 (((u.prompt_token_count.getD 0 : Nat) : Int)
        - ((u.cached_content_token_count.getD 0 : Nat) : Int)
        + ((u.tool_use_prompt_token_count.getD 0 : Nat) : Int)) := rfl
  exact ⟨h1, h1 ▸ le_max_left 0 _, rfl⟩

/-- C5 counterexample: the claim also covers `_calculate_cost` in
backend/services.py, which picks the pro input rate by comparing the derived
new-input count (not the total prompt count) with 200,000: at
`prompt_token_count = 250000`, `cached_content_token_count = 100000` the
total prompt exceeds the threshold, yet the code bills the 150,000 new input
tokens at the tier-1 rate 1.25, not the tier-2 rate 2.50 the claim
predicts. -/
theorem c5_counterexample :
    (calculate_cost ⟨some 250000, some 100000, none, none, none, none⟩
        "gemini-2.5-pro").input_cost = (150000 : ℚ) / 1000000 * (5/4)
    ∧ (calculate_cost ⟨some 250000, some 100000, none, none, none, none⟩
        "gemini-2.5-pro").input_cost ≠ (150000 : ℚ) / 1000000 * (5/2) := by
  constructor
  · rfl
  · norm_num [calculate_cost]

/-- C5 amended: `calculate_interaction_cost` (pricing.py) selects the rate
set by comparing the total prompt token count against the family threshold —
pro: 200,000 tokens selects tier_1 and 200,001 selects tier_2, flash yields
the tier_1 rates for every prompt size — even when the derived new-input
count is on the other side of the threshold (prompt 250,000 with 100,000
cached bills 150,000 new tokens at the tier-2 rate); the legacy
`_calculate_cost` (backend/services.py) instead compares the derived
new-input count (billing the same usage at the tier-1 rate 1.25). -/
theorem c5_amended :
    tier_rates proConfig 200000 = proConfig.tier_1
    ∧ tier_rates proConfig 200001 = proConfig.tier_2.getD proConfig.tier_1
    ∧ (∀ n : Int, tier_rates flashConfig n = flashConfig.tier_1)
    ∧ (calculate_interaction_cost ⟨some 200000, none, none, none, none, none⟩
        "gemini-2.5-pro").cost_breakdown.input_cost
        = round6 ((200000 : ℚ) / 1000000 * proConfig.tier_1.input)
    ∧ (calculate_interaction_cost ⟨some 200001, none, none, none, none, none⟩
        "gemini-2.5-pro").cost_breakdown.input_cost
        = round6 ((200001 : ℚ) / 1000000 * (proConfig.tier_2.getD proConfig.tier_1).input)
    ∧ (∀ u : UsageMetadata, ∀ model : String,
        (calculate_interaction_cost u model).cost_breakdown.input_cost
          = round6 (((calculate_interaction_cost u model).token_breakdown.new_input : ℚ) / 1000000
              * (tier_rates ((PRICING_TIERS (get_pricing_model model)).getD flashConfig)
                  ((u.prompt_token_count.getD 0 : Nat) : Int)).input))
    ∧ (calculate_interaction_cost ⟨some 250000, some 100000, none, none, none, none⟩
        "gemini-2.5-pro").token_breakdown.new_input = 150000
    ∧ (calculate_interaction_cost ⟨some 250000, some 100000, none, none, none, none⟩
        "gemini-2.5-pro").cost_breakdown.input_cost
        = round6 ((150000 : ℚ) / 1000000 * (proConfig.tier_2.getD proConfig.tier_1).input)
    ∧ (calculate_cost ⟨some 250000, some 100000, none, none, none, none⟩
        "gemini-2.5-pro").input_cost = (150000 : ℚ) / 1000000 * (5/4) := by
  refine ⟨rfl, rfl, ?_, rfl, rfl, ?_, rfl, ?_, rfl⟩
  · intro n
    unfold tier_rates
    split <;> rfl
  · intro u model
    rfl
  · rfl

/-- C6: for every part carrying a remote-file reference, `_serialize_part`
produces a `"fileData"` fragment realizing exactly one of the three mutually
exclusive outcomes — success (`data` and `name` present, no `error`), network
failure (an `error` starting with the `"Network error: "` marker, no
`data`/`name`), or processing failure (an `error` carrying the
`"Processing error: "` marker, no `data`/`name`) — and the success outcome is
distinguished from both failures by the absence of the `error` key. -/
theorem c6_file_reference_outcomes (p : GenPart) (fd : FileDataRef)
    (h : p.file_data = some fd) :
    ∃ f, (serialize_part p).fileData = some f
      ∧ (f.isSuccess ∨ f.isNetworkFailure ∨ f.isProcessingFailure)
      ∧ ¬ (f.isSuccess ∧ f.isNetworkFailure)
      ∧ ¬ (f.isSuccess ∧ f.isProcessingFailure)
      ∧ ¬ (f.isNetworkFailure ∧ f.isProcessingFailure)
      ∧ (f.isSuccess ↔ f.error = none) := by
  refine ⟨serialize_file_data fd p.fetchResult, by simp [serialize_part, h], ?_, ?_, ?_, ?_, ?_⟩
  all_goals cases hf : p.fetchResult with
  | success dn content =>
      simp [serialize_file_data, FileDataFrag.isSuccess, FileDataFrag.isNetworkFailure,
        FileDataFrag.isProcessingFailure]
  | networkError m =>
      simp [serialize_file_data, FileDataFrag.isSuccess, FileDataFrag.isNetworkFailure,
        FileDataFrag.isProcessingFailure]
      try (exact fun x hx => network_marker_ne_processing_marker m x hx)
  | otherError m =>
      simp [serialize_file_data, FileDataFrag.isSuccess, FileDataFrag.isNetworkFailure,
        FileDataFrag.isProcessingFailure]
      try (exact fun x hx => network_marker_ne_processing_marker x m hx.symm)

/-- C6 witness: a concrete part whose fetch raises a network exception. -/
theorem c6_witness :
    ∃ f, (serialize_part ⟨none, none, none, none,
        some ⟨"application/pdf", "https://host/files/abc"⟩,
        .networkError "connection refused"⟩).fileData = some f
      ∧ (f.isSuccess ∨ f.isNetworkFailure ∨ f.isProcessingFailure)
      ∧ ¬ (f.isSuccess ∧ f.isNetworkFailure)
      ∧ ¬ (f.isSuccess ∧ f.isProcessingFailure)
      ∧ ¬ (f.isNetworkFailure ∧ f.isProcessingFailure)
      ∧ (f.isSuccess ↔ f.error = none) :=
  c6_file_reference_outcomes _ _ rfl

/-- C7: best-effort cache operations never fail the primary operation — a
failing TTL renewal is swallowed by `_update_cache_heartbeat` (always `.ok`),
so for every registered session with a bound cache the send proceeds to the
upstream send regardless of the heartbeat environment; and `delete_chat`
always returns successfully with the session removed from the registry as
its final step, even when the remote cache deletion fails. -/
theorem c7_best_effort_cache_ops (hbEnv delEnv : String → Except String Unit)
    (sendEnv : Except String (List Chunk)) (sessions : List (String × PaidSession))
    (chat_id msg : String) (s : PaidSession) (cn : String)
    (hs : sessions.lookup chat_id = some s) (hc : s.cache_name = some cn) :
    update_cache_heartbeat hbEnv cn = .ok ()
    ∧ paid_send_message_to_chat hbEnv sendEnv sessions chat_id msg =
        (match sendEnv with
         | .error e => .error (.upstream e)
         | .ok chunks => .ok (paid_stream_response chunks s.model))
    ∧ paid_delete_chat delEnv sessions chat_id = .ok (eraseKey sessions chat_id) := by
  refine ⟨?_, ?_, ?_⟩
  · unfold update_cache_heartbeat
    cases hbEnv cn <;> rfl
  · simp only [paid_send_message_to_chat, hs, hc, update_cache_heartbeat]
    cases hbEnv cn <;> cases sendEnv <;> rfl
  · simp only [paid_delete_chat, hs, hc]
    cases delEnv cn <;> rfl

/-- C7 witness: a registry with one cache-bound session, heartbeat and
cache-deletion environments that always fail. -/
theorem c7_witness :
    update_cache_heartbeat (fun _ => .error "boom") "cachedContents/1" = .ok ()
    ∧ paid_send_message_to_chat (fun _ => .error "boom") (.ok [])
        [("chat-1", ⟨"gemini-2.5-flash", some "cachedContents/1", 0⟩)] "chat-1" "hello" =
        (match (.ok [] : Except String (List Chunk)) with
         | .error e => .error (.upstream e)
         | .ok chunks =>
            .ok (paid_stream_response chunks
              (⟨"gemini-2.5-flash", some "cachedContents/1", 0⟩ : PaidSession).model))
    ∧ paid_delete_chat (fun _ => .error "boom")
        [("chat-1", ⟨"gemini-2.5-flash", some "cachedContents/1", 0⟩)] "chat-1" =
        .ok (eraseKey [("chat-1", ⟨"gemini-2.5-flash", some "cachedContents/1", 0⟩)] "chat-1") :=
  c7_best_effort_cache_ops (fun _ => .error "boom") (fun _ => .error "boom") (.ok [])
    [("chat-1", ⟨"gemini-2.5-flash", some "cachedContents/1", 0⟩)] "chat-1" "hello"
    ⟨"gemini-2.5-flash", some "cachedContents/1", 0⟩ "cachedContents/1" rfl rfl

/-- C8: for a session id absent from the registry, `delete_chat` is an
idempotent no-op returning the registry unchanged, while
`send_message_to_chat` fails with the not-found error for every send
environment — before anything is sent. -/
theorem c8_unknown_session (sendEnv : MessageContent → Except String (List Chunk))
    (sessions : List (String × FreeSession)) (chat_id message : String)
    (h : sessions.lookup chat_id = none) :
    free_delete_chat sessions chat_id = sessions
    ∧ free_send_message_to_chat sendEnv sessions chat_id message
        = .error (.notFound chat_id) := by
  constructor
  · simp [free_delete_chat, h]
  · simp only [free_send_message_to_chat, h]

/-- C8 witness: an empty registry and a never-created session id. -/
theorem c8_witness :
    free_delete_chat [] "missing" = []
    ∧ free_send_message_to_chat (fun _ => .ok []) [] "missing" "hi"
        = .error (.notFound "missing") :=
  c8_unknown_session (fun _ => .ok []) [] "missing" "hi" rfl

/-- C9: when the just-produced dict has a `"text"` key (possibly alongside
other payload keys) and the last accumulated fragment also has a `"text"`
key, only the text is concatenated into that last fragment and every other
payload of the new dict is discarded — concretely, a second chunk carrying
text `"B"` together with executable code leaves only `{text "AB"}` in every
emitted snapshot, the executable-code payload appearing nowhere. -/
theorem c9_merge_discards_other_payloads (costFn : UsageMetadata → String → CostVal)
    (model : String) (front : List PartDict) (last pd : PartDict)
    (hlast : last.text.isSome = true) (hpd : pd.text.isSome = true) :
    mergeOrAppend (front ++ [last]) pd = front ++ [textMerge last (pd.text.getD "")]
    ∧ streamEmitted costFn
        [⟨none, [⟨⟨[⟨some "A", none, none, none, none, .success none []⟩]⟩⟩]⟩,
         ⟨none, [⟨⟨[⟨some "B", some ⟨"PYTHON", "x=1"⟩, none, none, none,
            .success none []⟩]⟩⟩]⟩] model
        = [[⟨some "A", none, none, none, none, none⟩],
           [⟨some "AB", none, none, none, none, none⟩]] := by
  constructor
  · have hc : (pd.text.isSome && last.text.isSome) = true := by rw [hpd, hlast]; rfl
    simp only [mergeOrAppend, List.getLast?_concat, if_pos hc, List.dropLast_concat]
  · rfl

/-- C9 witness: a text-and-executable-code dict merged into a text
fragment. -/
theorem c9_witness :
    mergeOrAppend ([] ++ [(⟨some "x", none, none, none, none, none⟩ : PartDict)])
        ⟨some "y", some ("lang", "code"), none, none, none, none⟩
      = [] ++ [textMerge ⟨some "x", none, none, none, none, none⟩
          ((⟨some "y", some ("lang", "code"), none, none, none, none⟩ : PartDict).text.getD "")]
    ∧ streamEmitted paidCostFn
        [⟨none, [⟨⟨[⟨some "A", none, none, none, none, .success none []⟩]⟩⟩]⟩,
         ⟨none, [⟨⟨[⟨some "B", some ⟨"PYTHON", "x=1"⟩, none, none, none,
            .success none []⟩]⟩⟩]⟩] "gemini-2.5-flash"
        = [[⟨some "A", none, none, none, none, none⟩],
           [⟨some "AB", none, none, none, none, none⟩]] :=
  c9_merge_discards_other_payloads paidCostFn "gemini-2.5-flash" []
    ⟨some "x", none, none, none, none, none⟩
    ⟨some "y", some ("lang", "code"), none, none, none, none⟩ rfl rfl

/-- C10: only the first candidate of a chunk contributes fragments — a chunk
with candidates `c :: rest` drives `_stream_response` to exactly the same
emitted lines as the same chunk with `rest` dropped, wherever it occurs in
the stream. -/
theorem c10_first_candidate_only (costFn : UsageMetadata → String → CostVal)
    (pre post : List Chunk) (u : Option UsageMetadata) (c : Candidate)
    (rest : List Candidate) (model : String) :
    streamEmitted costFn (pre ++ (⟨u, c :: rest⟩ : Chunk) :: post) model
      = streamEmitted costFn (pre ++ (⟨u, [c]⟩ : Chunk) :: post) model := by
  have h : ∀ st : StreamState, processChunk st ⟨u, c :: rest⟩ = processChunk st ⟨u, [c]⟩ :=
    fun st => rfl
  simp only [streamEmitted, streamCore, List.foldl_append, List.foldl_cons, h]
